import Mathlib

set_option maxRecDepth 400000

/-!
Verification of the hotellook API client (package hotellook, hotellook.go).

The Go client is embedded shallowly:

* machine integers (`int`) become `Int`; byte values become `Nat` (each kept
  below 256 by construction);
* `md5.Sum` is implemented bit-faithfully over byte lists, with 32-bit words
  as `Nat` reduced mod 2^32 at every operation;
* Go maps (`map[string]string`) become association lists whose key lists are
  `Nodup`; the `sort.StringSlice.Sort` call becomes an insertion sort
  (any correct ascending sort agrees on the sorted result);
* `url.Values` built by successive `Add` calls becomes the list of added
  (key, value) pairs, and `Encode` sorts the distinct keys and percent-escapes
  keys and values exactly as `net/url` does;
* each HTTP endpoint method becomes a function taking the outside world as an
  oracle `fetch : String → HttpOutcome α` (URL to transport failure, body
  decode failure, or decoded payload; the decoded payload type is abstracted
  to a type parameter since no claim inspects payload fields) and returning
  the Go result together with the list of URLs actually requested.
-/

namespace Hotellook

/-! ### Bytes and UTF-8 -/

/-- UTF-8 encoding of a single character (Go strings are UTF-8 byte slices;
`[]byte(s)` yields these bytes). -/
def utf8Bytes (c : Char) : List Nat :=
  let n := c.toNat
  if n < 0x80 then [n]
  else if n < 0x800 then
    [0xC0 ||| (n >>> 6), 0x80 ||| (n &&& 0x3F)]
  else if n < 0x10000 then
    [0xE0 ||| (n >>> 12), 0x80 ||| ((n >>> 6) &&& 0x3F), 0x80 ||| (n &&& 0x3F)]
  else
    [0xF0 ||| (n >>> 18), 0x80 ||| ((n >>> 12) &&& 0x3F),
     0x80 ||| ((n >>> 6) &&& 0x3F), 0x80 ||| (n &&& 0x3F)]

/-- The UTF-8 bytes of a string, as the Go conversion `[]byte(s)` produces them. -/
def strBytes (s : String) : List Nat :=
  s.toList.flatMap utf8Bytes

/-! ### MD5 (crypto/md5), words as `Nat` mod 2^32 -/

namespace MD5

def w32 : Nat := 4294967296

def add32 (a b : Nat) : Nat := (a + b) % w32

/-- Bitwise complement within 32 bits (argument assumed < 2^32). -/
def not32 (x : Nat) : Nat := 4294967295 - x

/-- Left-rotation of a 32-bit word. -/
def rotl (x n : Nat) : Nat := ((x <<< n) ||| (x >>> (32 - n))) % w32

/-- The 64 sine-derived round constants of MD5 (RFC 1321). -/
def K : List Nat :=
  [0xd76aa478, 0xe8c7b756, 0x242070db, 0xc1bdceee,
   0xf57c0faf, 0x4787c62a, 0xa8304613, 0xfd469501,
   0x698098d8, 0x8b44f7af, 0xffff5bb1, 0x895cd7be,
   0x6b901122, 0xfd987193, 0xa679438e, 0x49b40821,
   0xf61e2562, 0xc040b340, 0x265e5a51, 0xe9b6c7aa,
   0xd62f105d, 0x02441453, 0xd8a1e681, 0xe7d3fbc8,
   0x21e1cde6, 0xc33707d6, 0xf4d50d87, 0x455a14ed,
   0xa9e3e905, 0xfcefa3f8, 0x676f02d9, 0x8d2a4c8a,
   0xfffa3942, 0x8771f681, 0x6d9d6122, 0xfde5380c,
   0xa4beea44, 0x4bdecfa9, 0xf6bb4b60, 0xbebfbc70,
   0x289b7ec6, 0xeaa127fa, 0xd4ef3085, 0x04881d05,
   0xd9d4d039, 0xe6db99e5, 0x1fa27cf8, 0xc4ac5665,
   0xf4292244, 0x432aff97, 0xab9423a7, 0xfc93a039,
   0x655b59c3, 0x8f0ccc92, 0xffeff47d, 0x85845dd1,
   0x6fa87e4f, 0xfe2ce6e0, 0xa3014314, 0x4e0811a1,
   0xf7537e82, 0xbd3af235, 0x2ad7d2bb, 0xeb86d391]

/-- The 64 per-round left-rotation amounts of MD5. -/
def S : List Nat :=
  [7, 12, 17, 22, 7, 12, 17, 22, 7, 12, 17, 22, 7, 12, 17, 22,
   5,  9, 14, 20, 5,  9, 14, 20, 5,  9, 14, 20, 5,  9, 14, 20,
   4, 11, 16, 23, 4, 11, 16, 23, 4, 11, 16, 23, 4, 11, 16, 23,
   6, 10, 15, 21, 6, 10, 15, 21, 6, 10, 15, 21, 6, 10, 15, 21]

/-- One MD5 round applied to the running state, `M` giving the sixteen
little-endian message words of the current block. -/
def step (M : Nat → Nat) (st : Nat × Nat × Nat × Nat) (i : Nat) :
    Nat × Nat × Nat × Nat :=
  let a := st.1
  let b := st.2.1
  let c := st.2.2.1
  let d := st.2.2.2
  let f :=
    if i < 16 then (b &&& c) ||| (not32 b &&& d)
    else if i < 32 then (d &&& b) ||| (not32 d &&& c)
    else if i < 48 then b ^^^ c ^^^ d
    else c ^^^ (b ||| not32 d)
  let g :=
    if i < 16 then i
    else if i < 32 then (5 * i + 1) % 16
    else if i < 48 then (3 * i + 5) % 16
    else (7 * i) % 16
  let tmp := add32 (add32 (add32 f a) (K.getD i 0)) (M g)
  (d, add32 b (rotl tmp (S.getD i 0)), b, c)

/-- MD5 padding: a 0x80 byte, zeros to 56 mod 64, then the bit length as
eight little-endian bytes. -/
def padMsg (msg : List Nat) : List Nat :=
  let len := msg.length
  let zeros := (119 - len % 64) % 64
  msg ++ [0x80] ++ List.replicate zeros 0 ++
    (List.range 8).map (fun j => ((8 * len) >>> (8 * j)) % 256)

/-- The compression loop over all 64-byte blocks of the padded message. -/
def md5core (msg : List Nat) : Nat × Nat × Nat × Nat :=
  let p := padMsg msg
  (List.range (p.length / 64)).foldl
    (fun st bi =>
      let M := fun j =>
        p.getD (64 * bi + 4 * j) 0 + 256 * p.getD (64 * bi + 4 * j + 1) 0 +
          65536 * p.getD (64 * bi + 4 * j + 2) 0 +
          16777216 * p.getD (64 * bi + 4 * j + 3) 0
      let r := (List.range 64).foldl (step M) st
      (add32 st.1 r.1, add32 st.2.1 r.2.1, add32 st.2.2.1 r.2.2.1,
       add32 st.2.2.2 r.2.2.2))
    (0x67452301, 0xefcdab89, 0x98badcfe, 0x10325476)

/-- The sixteen digest bytes, the four state words serialized little-endian. -/
def md5Bytes (msg : List Nat) : List Nat :=
  let r := md5core msg
  [r.1, r.2.1, r.2.2.1, r.2.2.2].flatMap
    (fun w => [w % 256, (w >>> 8) % 256, (w >>> 16) % 256, (w >>> 24) % 256])

end MD5

/-- A lowercase hexadecimal digit, as `encoding/hex` renders nibbles. -/
def hexDigit (n : Nat) : Char :=
  if n < 10 then Char.ofNat (48 + n) else Char.ofNat (87 + n)

/-- The two lowercase hex characters of one byte. -/
def hexPair (b : Nat) : List Char := [hexDigit (b / 16), hexDigit (b % 16)]

/-- `hex.EncodeToString(md5.Sum(msg))`: the lowercase-hex MD5 digest. -/
def md5Hex (msg : List Nat) : String :=
  String.mk ((MD5.md5Bytes msg).flatMap hexPair)

/-! ### Byte-lexicographic string order (Go `sort.Strings` / `s < t`) -/

/-- Lexicographic comparison of character lists by code point. On UTF-8
strings this coincides with the Go byte-wise `<=` on `string`, since UTF-8
preserves code-point order. -/
def charListLe : List Char → List Char → Bool
  | [], _ => true
  | _ :: _, [] => false
  | a :: as, b :: bs =>
    if a.toNat < b.toNat then true
    else if b.toNat < a.toNat then false
    else charListLe as bs

/-- The Go comparison `s <= t` on strings (byte-wise lexicographic). -/
def strLe (a b : String) : Bool := charListLe a.toList b.toList

/-- The order `sort.StringSlice.Sort` and `url.Values.Encode` sort by. -/
def strLeR (a b : String) : Prop := strLe a b = true

instance strLeR.decidableRel : DecidableRel strLeR := fun a b =>
  inferInstanceAs (Decidable (strLe a b = true))

/-! ### net/url query escaping and `url.Values.Encode` -/

/-- Bytes `url.QueryEscape` leaves untouched: ASCII alphanumerics and
`-`, `_`, `.`, `~`. -/
def isUnreservedByte (b : Nat) : Bool :=
  (48 ≤ b && b ≤ 57) || (65 ≤ b && b ≤ 90) || (97 ≤ b && b ≤ 122) ||
    b == 45 || b == 95 || b == 46 || b == 126

/-- An uppercase hexadecimal digit (the Go `upperhex` table). -/
def hexDigitUpper (n : Nat) : Char :=
  if n < 10 then Char.ofNat (48 + n) else Char.ofNat (55 + n)

/-- `url.QueryEscape` on one byte: unreserved bytes stand, a space becomes
`+`, every other byte becomes `%XX` with uppercase hex. -/
def escByte (b : Nat) : List Char :=
  if isUnreservedByte b then [Char.ofNat b]
  else if b == 32 then [Char.ofNat 43]
  else [Char.ofNat 37, hexDigitUpper (b / 16), hexDigitUpper (b % 16)]

/-- `url.QueryEscape`, applied byte-wise to the UTF-8 bytes of the string. -/
def queryEscape (s : String) : String :=
  String.mk ((strBytes s).flatMap escByte)

/-- `url.Values.Encode` on the list of pairs passed to `Values.Add`, in call
order: sort the distinct keys, then for each key emit `key=value` for each of
its values in insertion order, all joined by `&`, keys and values
query-escaped. -/
def valuesEncode (pairs : List (String × String)) : String :=
  let keys := List.insertionSort strLeR (pairs.map Prod.fst).dedup
  String.intercalate "&"
    (keys.flatMap (fun k =>
      (pairs.filter (fun p => p.1 == k)).map
        (fun p => queryEscape k ++ "=" ++ queryEscape p.2)))

/-! ### The signing routine (`withSignature`) -/

/-- Go map indexing `ps[k]` on an association list (the embedded
`map[string]string` always has `Nodup` keys, so the first hit is the value). -/
def mapGet (ps : List (String × String)) (k : String) : String :=
  match ps.find? (fun p => p.1 == k) with
  | some p => p.2
  | none => ""

/-- The parameter keys sorted ascending, as `sort.StringSlice.Sort` leaves
them. -/
def sortKeys (ps : List (String × String)) : List String :=
  List.insertionSort strLeR (ps.map Prod.fst)

/-- `(*API).withSignature` (hotellook.go:67): build the colon-joined source
string `token:marker[:value...]` over the sorted parameter keys, hash it with
MD5, and URL-encode the parameters plus `marker` and `signature`. A `nil` Go
map is `none`; a non-nil map is `some` of its entry list. -/
def withSignature (token : String) (marker : Int)
    (params : Option (List (String × String))) : String :=
  let ps := params.getD []
  let keys := match params with
    | none => []
    | some ps => sortKeys ps
  let src := keys.foldl (fun s k => s ++ ":" ++ mapGet ps k)
    (token ++ ":" ++ toString marker)
  valuesEncode (keys.map (fun k => (k, mapGet ps k)) ++
    [("marker", toString marker), ("signature", md5Hex (strBytes src))])

/-! ### Client state and error values -/

/-- The error values of hotellook.go: the three sentinel errors, plus the
transport and JSON-decode errors the endpoints pass through (carrying their
message). -/
inductive Err where
  | noAccess
  | emptySearchID
  | missingParams
  | transport (msg : String)
  | decode (msg : String)
deriving DecidableEq, Repr

/-- What the outside world answers to one `http.Get` + body read + JSON
decode: a transport failure, a body rejected by the decoder of the endpoint, or the
decoded payload. -/
inductive HttpOutcome (α : Type) where
  | transportFail (msg : String)
  | decodeFail (msg : String)
  | ok (v : α)
deriving DecidableEq, Repr

/-- The `API` struct: credentials plus the mutex-guarded rate-limit counters
(the mutex itself is not represented; updates are modeled as whole-state
functions). -/
structure API where
  token : String
  marker : Int
  remains : Int
  limit : Int
deriving DecidableEq, Repr

/-- `NewAPI` (hotellook.go:42): `nil` for marker 0, else a client with the
given marker and everything else zero-valued. -/
def NewAPI (marker : Int) : Option API :=
  if marker = 0 then none
  else some { token := "", marker := marker, remains := 0, limit := 0 }

/-- `(*API).SetToken`. -/
def SetToken (api : API) (token : String) : API := { api with token := token }

/-- `(*API).RequestsRemains` (hotellook.go:54): hardcoded 0. -/
def RequestsRemains (_ : API) : Int := 0

/-- `(*API).RequestsLimit` (hotellook.go:57): hardcoded 0. -/
def RequestsLimit (_ : API) : Int := 0

/-- `strconv.Atoi` with its error discarded, as `updateRemains` uses it: the
parsed value on an optionally-signed all-digit string, 0 on a syntax error
(integer range clamping is not modeled; `Int` is unbounded). -/
def goAtoi (s : String) : Int :=
  let parse := fun (cs : List Char) (sign : Int) =>
    if cs ≠ [] && cs.all (fun c => 48 ≤ c.toNat && c.toNat ≤ 57) then
      sign * cs.foldl (fun a c => 10 * a + ((c.toNat : Int) - 48)) 0
    else 0
  match s.toList with
  | '-' :: rest => parse rest (-1)
  | '+' :: rest => parse rest 1
  | cs => parse cs 1

/-- `(*API).updateRemains` (hotellook.go:59): store the parsed
`X-Ratelimit-Remaining` and `X-Ratelimit-Limit` header values. -/
def updateRemains (api : API) (ratelimitRemaining ratelimitLimit : String) :
    API :=
  { api with remains := goAtoi ratelimitRemaining,
             limit := goAtoi ratelimitLimit }

/-- `(*API).checkAccess` (hotellook.go:91). -/
def checkAccess (api : API) : Option Err :=
  if api.token = "" ∨ api.marker = 0 then some .noAccess else none

def apiURL : String := "http://engine.hotellook.com/api/v2/"

/-! ### Endpoints

Each endpoint returns the Go result (`Except Err` of the decoded payload)
paired with the list of URLs it requested from the world. The
`go this.updateRemains(r)` fire-and-forget counter update is concurrency
outside the per-call result and is modeled separately via `updateRemains`. -/

/-- `(*API).Countries` (hotellook.go:276): closed endpoint; decode failure
becomes `ErrNoAccess`. -/
def Countries {α : Type} (api : API) (fetch : String → HttpOutcome α) :
    Except Err α × List String :=
  match checkAccess api with
  | some e => (.error e, [])
  | none =>
    let url := apiURL ++ "static/countries.json?" ++
      withSignature api.token api.marker none
    match fetch url with
    | .transportFail e => (.error (.transport e), [url])
    | .decodeFail _ => (.error .noAccess, [url])
    | .ok v => (.ok v, [url])

/-- `(*API).Cities` (hotellook.go:308): closed endpoint; decode failure
becomes `ErrNoAccess`. -/
def Cities {α : Type} (api : API) (fetch : String → HttpOutcome α) :
    Except Err α × List String :=
  match checkAccess api with
  | some e => (.error e, [])
  | none =>
    let url := apiURL ++ "static/locations.json?" ++
      withSignature api.token api.marker none
    match fetch url with
    | .transportFail e => (.error (.transport e), [url])
    | .decodeFail _ => (.error .noAccess, [url])
    | .ok v => (.ok v, [url])

/-- `(*API).Amenities` (hotellook.go:337): closed endpoint; decode failure
becomes `ErrNoAccess`. -/
def Amenities {α : Type} (api : API) (fetch : String → HttpOutcome α) :
    Except Err α × List String :=
  match checkAccess api with
  | some e => (.error e, [])
  | none =>
    let url := apiURL ++ "static/amenities.json?" ++
      withSignature api.token api.marker none
    match fetch url with
    | .transportFail e => (.error (.transport e), [url])
    | .decodeFail _ => (.error .noAccess, [url])
    | .ok v => (.ok v, [url])

/-- `(*API).FetchHotelList` (hotellook.go:402): closed endpoint with one
parameter; decode failure becomes `ErrNoAccess`. -/
def FetchHotelList {α : Type} (api : API) (locationId : String)
    (fetch : String → HttpOutcome α) : Except Err α × List String :=
  match checkAccess api with
  | some e => (.error e, [])
  | none =>
    let v := [("locationId", locationId)]
    let url := apiURL ++ "static/hotels.json?" ++
      withSignature api.token api.marker (some v)
    match fetch url with
    | .transportFail e => (.error (.transport e), [url])
    | .decodeFail _ => (.error .noAccess, [url])
    | .ok v => (.ok v, [url])

/-- `(*API).RoomTypes` (hotellook.go:428): signed like the other static
endpoints and mapping decode failure to `ErrNoAccess`, but — unlike
`Countries`, `Cities`, `Amenities`, `FetchHotelList` — it never calls
`checkAccess` before issuing the request. -/
def RoomTypes {α : Type} (api : API) (fetch : String → HttpOutcome α) :
    Except Err α × List String :=
  let url := apiURL ++ "static/roomTypes.json?" ++
    withSignature api.token api.marker none
  match fetch url with
  | .transportFail e => (.error (.transport e), [url])
  | .decodeFail _ => (.error .noAccess, [url])
  | .ok v => (.ok v, [url])

structure LookupRequest where
  Query : String
  Lang : String
  LookFor : String
  Limit : Int
  ConvertCase : Int
deriving DecidableEq, Repr

/-- The `url.Values.Add` calls of `Lookup` (hotellook.go:150), in program
order. -/
def lookupPairs (req : LookupRequest) : List (String × String) :=
  [("query", req.Query), ("lang", req.Lang), ("lookFor", req.LookFor)] ++
    (if req.Limit ≠ 0 then [("limit", toString req.Limit)] else []) ++
    (if req.ConvertCase ≠ 0 then
      [("convertCase", toString req.ConvertCase)] else [])

/-- `(*API).Lookup` (hotellook.go:146): public endpoint, no signature; decode
failure passes through. -/
def Lookup {α : Type} (api : API) (req : LookupRequest)
    (fetch : String → HttpOutcome α) : Except Err α × List String :=
  let url := apiURL ++ "lookup.json?" ++ valuesEncode (lookupPairs req)
  match fetch url with
  | .transportFail e => (.error (.transport e), [url])
  | .decodeFail e => (.error (.decode e), [url])
  | .ok v => (.ok v, [url])

/-- `PriceRequest`; `CustomerIP net.IP` is carried as the string
`req.CustomerIP.String()` renders to, which is all `Price` uses of it. -/
structure PriceRequest where
  Location : String
  CheckIn : String
  CheckOut : String
  Currency : String
  LocationID : Int
  HotelID : Int
  Hotel : String
  Adults : Int
  Children : Int
  Infants : Int
  Limit : Int
  CustomerIP : String
deriving DecidableEq, Repr

/-- The `url.Values.Add` calls of `Price` (hotellook.go:215), in program
order; note the misspelled `hotleId` key at hotellook.go:222. -/
def pricePairs (req : PriceRequest) : List (String × String) :=
  [("location", req.Location), ("checkIn", req.CheckIn),
   ("checkOut", req.CheckOut)] ++
    (if req.LocationID ≠ 0 then
      [("locationId", toString req.LocationID)] else []) ++
    (if req.HotelID ≠ 0 then [("hotleId", toString req.HotelID)] else []) ++
    (if req.Hotel ≠ "" then [("hotel", req.Hotel)] else []) ++
    (if req.Adults ≠ 0 then [("adults", toString req.Adults)] else []) ++
    (if req.Children ≠ 0 then [("children", toString req.Children)] else []) ++
    (if req.Currency ≠ "" then [("currency", req.Currency)] else []) ++
    (if req.Infants ≠ 0 then [("infants", toString req.Infants)] else []) ++
    (if req.Limit ≠ 0 then [("limit", toString req.Limit)] else []) ++
    [("clientIp", req.CustomerIP)]

/-- `(*API).Price` (hotellook.go:210): public endpoint, no signature; decode
failure passes through. -/
def Price {α : Type} (api : API) (req : PriceRequest)
    (fetch : String → HttpOutcome α) : Except Err α × List String :=
  let url := apiURL ++ "cache.json?" ++ valuesEncode (pricePairs req)
  match fetch url with
  | .transportFail e => (.error (.transport e), [url])
  | .decodeFail e => (.error (.decode e), [url])
  | .ok v => (.ok v, [url])

/-- `strings.ToUpper`, faithful on the ASCII range (all the callers pass
currency codes). -/
def asciiUpper (s : String) : String :=
  String.mk (s.toList.map (fun c =>
    if 97 ≤ c.toNat && c.toNat ≤ 122 then Char.ofNat (c.toNat - 32) else c))

/-- `SearchRequest`; the `ChildAges [3]int` array is the triple. -/
structure SearchRequest where
  CityID : Int
  HotelID : Int
  IATA : String
  CheckIn : String
  CheckOut : String
  AdultsCount : Int
  ChildrenCount : Int
  ChildAges : Int × Int × Int
  CustomerIp : String
  Currency : String
  Lang : String
  WaitForResult : Int
deriving DecidableEq, Repr

/-- The map entries `Search` (hotellook.go:464) assigns, in program order. -/
def searchParams (req : SearchRequest) : List (String × String) :=
  [("cityId", toString req.CityID)] ++
    (if req.HotelID ≠ 0 then [("hotelId", toString req.HotelID)] else []) ++
    (if req.WaitForResult ≠ 0 then
      [("waitForResult", toString req.WaitForResult)] else []) ++
    (if req.IATA ≠ "" then [("iata", req.IATA)] else []) ++
    [("checkIn", req.CheckIn), ("checkOut", req.CheckOut),
     ("adultsCount", toString req.AdultsCount),
     ("childrenCount", toString req.ChildrenCount)] ++
    (if req.ChildrenCount ≠ 0 then
      [("childAge1", toString req.ChildAges.1)] ++
        (if req.ChildrenCount > 1 then
          [("childAge2", toString req.ChildAges.2.1)] else []) ++
        (if req.ChildrenCount = 3 then
          [("childAge3", toString req.ChildAges.2.2)] else [])
     else []) ++
    [("lang", req.Lang), ("currency", asciiUpper req.Currency),
     ("customerIp", req.CustomerIp)]

/-- `(*API).Search` (hotellook.go:464): signed but public (no `checkAccess`);
decode failure passes through; on success Go returns the decoded
`searchId` — the decoded payload stays abstract here. -/
def Search {α : Type} (api : API) (req : SearchRequest)
    (fetch : String → HttpOutcome α) : Except Err α × List String :=
  let url := apiURL ++ "search/start.json?" ++
    withSignature api.token api.marker (some (searchParams req))
  match fetch url with
  | .transportFail e => (.error (.transport e), [url])
  | .decodeFail e => (.error (.decode e), [url])
  | .ok v => (.ok v, [url])

structure SearchResultsRequest where
  SearchID : Int
  Limit : Int
  Offset : Int
  SortBy : String
  SortAsc : Int
  RoomsCount : Int
deriving DecidableEq, Repr

/-- The map entries `FetchSearchResults` (hotellook.go:587) assigns on the
network path, in program order. -/
def searchResultsParams (req : SearchResultsRequest) :
    List (String × String) :=
  [("searchId", toString req.SearchID)] ++
    (if req.Limit ≠ 0 then [("limit", toString req.Limit)] else []) ++
    (if req.Offset ≠ 0 then [("offset", toString req.Offset)] else []) ++
    (if req.SortBy ≠ "" then [("sortBy", req.SortBy)] else []) ++
    (if req.SortAsc = -1 then [("sortAsc", "0")] else []) ++
    (if req.RoomsCount ≠ 0 then
      [("roomsCount", toString req.RoomsCount)] else [])

/-- `(*API).FetchSearchResults` (hotellook.go:573). `fixture` is the outcome
of reading and decoding `./test_data.json` (a failed read leaves a nil body
that the decoder then rejects, so read and decode failures coincide in it).
`SearchID == 0` errors before anything else; `SearchID == -1` uses the
fixture and never touches the network; otherwise a signed request is
issued and a decode failure passes through. -/
def FetchSearchResults {α : Type} (api : API) (req : SearchResultsRequest)
    (fetch : String → HttpOutcome α) (fixture : Except String α) :
    Except Err α × List String :=
  if req.SearchID = 0 then (.error .emptySearchID, [])
  else if req.SearchID = -1 then
    (match fixture with
     | .error e => .error (.decode e)
     | .ok v => .ok v, [])
  else
    let url := apiURL ++ "search/getResult.json?" ++
      withSignature api.token api.marker (some (searchResultsParams req))
    match fetch url with
    | .transportFail e => (.error (.transport e), [url])
    | .decodeFail e => (.error (.decode e), [url])
    | .ok v => (.ok v, [url])

/-! ### The description the spec gives of the signing source string -/

/-- Modelled from the spec (§4.2), for comparison with the `withSignature`
embedding: "Build a source string: `token + ":" + marker`, then for each
sorted key append `":" + value`." -/
def specSourceString (token : String) (marker : Int)
    (params : List (String × String)) : String :=
  token ++ ":" ++ toString marker ++
    String.join ((sortKeys params).map (fun k => ":" ++ mapGet params k))

/-! ### The sort order is a linear order -/

theorem charListLe_total (as bs : List Char) :
    charListLe as bs = true ∨ charListLe bs as = true := by
  induction as generalizing bs with
  | nil => left; rfl
  | cons a as ih =>
    cases bs with
    | nil => right; rfl
    | cons b bs =>
      rcases Nat.lt_trichotomy a.toNat b.toNat with h | h | h
      · left; simp [charListLe, h]
      · rcases ih bs with h2 | h2
        · left; simp [charListLe, h, h2]
        · right; simp [charListLe, h.symm, h2]
      · right; simp [charListLe, h]

theorem charListLe_trans (as bs cs : List Char)
    (h1 : charListLe as bs = true) (h2 : charListLe bs cs = true) :
    charListLe as cs = true := by
  induction as generalizing bs cs with
  | nil => rfl
  | cons a as ih =>
    cases bs with
    | nil => simp [charListLe] at h1
    | cons b bs =>
      cases cs with
      | nil => simp [charListLe] at h2
      | cons c cs =>
        simp only [charListLe] at h1 h2 ⊢
        split_ifs at h1 h2 ⊢ <;>
          first
          | rfl
          | omega
          | (exact ih bs cs h1 h2)

theorem charListLe_antisymm (as bs : List Char)
    (h1 : charListLe as bs = true) (h2 : charListLe bs as = true) :
    as = bs := by
  induction as generalizing bs with
  | nil =>
    cases bs with
    | nil => rfl
    | cons b bs => simp [charListLe] at h2
  | cons a as ih =>
    cases bs with
    | nil => simp [charListLe] at h1
    | cons b bs =>
      simp only [charListLe] at h1 h2
      by_cases hab : a.toNat < b.toNat
      · have hba : ¬ b.toNat < a.toNat := by omega
        simp [hab, hba] at h2
      · by_cases hba : b.toNat < a.toNat
        · simp [hab, hba] at h1
        · have hc : a = b := by
            have he : a.toNat = b.toNat := by omega
            have := congrArg Char.ofNat he
            rwa [Char.ofNat_toNat, Char.ofNat_toNat] at this
          subst hc
          simp only [hab, if_neg, Nat.lt_irrefl] at h1 h2
          rw [ih bs h1 h2]

theorem string_eq_of_toList {a b : String} (h : a.toList = b.toList) :
    a = b :=
  String.ext h

instance strLeR.total : IsTotal String strLeR :=
  ⟨fun a b => charListLe_total a.toList b.toList⟩

instance strLeR.trans : IsTrans String strLeR :=
  ⟨fun a b c => charListLe_trans a.toList b.toList c.toList⟩

instance strLeR.antisymm : IsAntisymm String strLeR :=
  ⟨fun _ _ h1 h2 => string_eq_of_toList (charListLe_antisymm _ _ h1 h2)⟩

/-! ### `queryEscape` fixes unreserved ASCII strings -/

theorem utf8Bytes_ascii (c : Char) (h : c.toNat < 128) :
    utf8Bytes c = [c.toNat] := by
  simp only [utf8Bytes]
  rw [if_pos (by omega)]

theorem escByte_unreserved (b : Nat) (h : isUnreservedByte b = true) :
    escByte b = [Char.ofNat b] := by
  simp [escByte, h]

theorem escape_chars_eq_self (l : List Char)
    (h : ∀ c ∈ l, c.toNat < 128 ∧ isUnreservedByte c.toNat = true) :
    (l.flatMap utf8Bytes).flatMap escByte = l := by
  rw [List.flatMap_assoc]
  induction l with
  | nil => rfl
  | cons c cs ih =>
    obtain ⟨hlt, hun⟩ := h c (by simp)
    have step : (utf8Bytes c).flatMap escByte = [c] := by
      rw [utf8Bytes_ascii c hlt]
      simp [escByte_unreserved _ hun, Char.ofNat_toNat]
    simpa [step] using ih (fun c hc => h c (by simp [hc]))

theorem queryEscape_eq_self (s : String)
    (h : ∀ c ∈ s.toList, c.toNat < 128 ∧ isUnreservedByte c.toNat = true) :
    queryEscape s = s := by
  apply string_eq_of_toList
  show (s.toList.flatMap utf8Bytes).flatMap escByte = s.toList
  exact escape_chars_eq_self _ h

theorem hexDigit_unreserved :
    ∀ n, n < 16 →
      (hexDigit n).toNat < 128 ∧ isUnreservedByte (hexDigit n).toNat = true := by
  decide

theorem md5Bytes_lt (m : List Nat) : ∀ b ∈ MD5.md5Bytes m, b < 256 := by
  intro b hb
  simp only [MD5.md5Bytes, List.mem_flatMap] at hb
  obtain ⟨w, _, hmem⟩ := hb
  simp only [List.mem_cons, List.mem_singleton, List.not_mem_nil, or_false]
    at hmem
  rcases hmem with rfl | rfl | rfl | rfl <;> exact Nat.mod_lt _ (by omega)

theorem queryEscape_md5Hex (m : List Nat) :
    queryEscape (md5Hex m) = md5Hex m := by
  apply queryEscape_eq_self
  intro c hc
  have hc2 : c ∈ (MD5.md5Bytes m).flatMap hexPair := hc
  rw [List.mem_flatMap] at hc2
  obtain ⟨b, hb, hcp⟩ := hc2
  have hblt := md5Bytes_lt m b hb
  simp only [hexPair, List.mem_cons, List.mem_singleton, List.not_mem_nil,
    or_false] at hcp
  rcases hcp with rfl | rfl
  · exact hexDigit_unreserved _ (by omega)
  · exact hexDigit_unreserved _ (by omega)

theorem toDigitsCore_digits (fuel : Nat) :
    ∀ (n : Nat) (ds : List Char),
      (∀ c ∈ ds, 48 ≤ c.toNat ∧ c.toNat ≤ 57) →
      ∀ c ∈ Nat.toDigitsCore 10 fuel n ds, 48 ≤ c.toNat ∧ c.toNat ≤ 57 := by
  induction fuel with
  | zero => intro n ds hds c hc; exact hds c hc
  | succ fuel ih =>
    intro n ds hds c hc
    have hd : ∀ c ∈ (Nat.digitChar (n % 10) :: ds),
        48 ≤ c.toNat ∧ c.toNat ≤ 57 := by
      intro x hx
      rcases List.mem_cons.1 hx with rfl | hx
      · have : n % 10 < 10 := Nat.mod_lt _ (by omega)
        revert this
        have hall : ∀ m, m < 10 →
            48 ≤ (Nat.digitChar m).toNat ∧ (Nat.digitChar m).toNat ≤ 57 := by
          decide
        exact hall (n % 10)
      · exact hds x hx
    have hstep : Nat.toDigitsCore 10 (fuel + 1) n ds =
        if n / 10 = 0 then Nat.digitChar (n % 10) :: ds
        else Nat.toDigitsCore 10 fuel (n / 10) (Nat.digitChar (n % 10) :: ds) :=
      rfl
    rw [hstep] at hc
    split at hc
    · exact hd c hc
    · exact ih (n / 10) _ hd c hc

theorem natRepr_digits (n : Nat) :
    ∀ c ∈ (Nat.repr n).toList, 48 ≤ c.toNat ∧ c.toNat ≤ 57 := by
  intro c hc
  exact toDigitsCore_digits (n + 1) n [] (by simp) c hc

theorem intToString_chars (m : Int) :
    ∀ c ∈ (toString m).toList, (48 ≤ c.toNat ∧ c.toNat ≤ 57) ∨ c.toNat = 45 := by
  intro c hc
  cases m with
  | ofNat n => exact Or.inl (natRepr_digits n c hc)
  | negSucc n =>
    have : (toString (Int.negSucc n)).toList =
        '-' :: (Nat.repr (n + 1)).toList := rfl
    rw [this] at hc
    rcases List.mem_cons.1 hc with rfl | hc
    · exact Or.inr rfl
    · exact Or.inl (natRepr_digits (n + 1) c hc)

theorem queryEscape_intToString (m : Int) :
    queryEscape (toString m) = toString m := by
  apply queryEscape_eq_self
  intro c hc
  rcases intToString_chars m c hc with h | h
  · refine ⟨by omega, ?_⟩
    simp only [isUnreservedByte, Bool.or_eq_true, Bool.and_eq_true,
      decide_eq_true_eq, beq_iff_eq]
    omega
  · refine ⟨by omega, ?_⟩
    simp only [isUnreservedByte, Bool.or_eq_true, Bool.and_eq_true,
      decide_eq_true_eq, beq_iff_eq]
    omega

/-! ### String joining -/

theorem foldl_append_hoist (l : List String) (init : String) :
    List.foldl (fun r s => r ++ s) init l =
      init ++ List.foldl (fun r s => r ++ s) "" l := by
  induction l generalizing init with
  | nil => simp
  | cons a as ih =>
    rw [List.foldl_cons, ih, List.foldl_cons, ih ("" ++ a),
      String.empty_append, String.append_assoc]

theorem join_cons (a : String) (l : List String) :
    String.join (a :: l) = a ++ String.join l := by
  show List.foldl (fun r s => r ++ s) "" (a :: l) = _
  rw [List.foldl_cons, foldl_append_hoist, String.empty_append]
  rfl

theorem srcString_foldl (keys : List String) (ps : List (String × String))
    (init : String) :
    keys.foldl (fun s k => s ++ ":" ++ mapGet ps k) init =
      init ++ String.join (keys.map (fun k => ":" ++ mapGet ps k)) := by
  induction keys generalizing init with
  | nil => show init = init ++ ""; rw [String.append_empty]
  | cons k ks ih =>
    rw [List.foldl_cons, ih, List.map_cons, join_cons,
      String.append_assoc, String.append_assoc, String.append_assoc]

/-! ### Association-list (Go map) lookups -/

theorem mapGet_eq_of_mem {ps : List (String × String)}
    (hnd : (ps.map Prod.fst).Nodup) {k v : String} (hm : (k, v) ∈ ps) :
    mapGet ps k = v := by
  unfold mapGet
  cases hfind : ps.find? (fun p => p.1 == k) with
  | none =>
    exact absurd (by simp : (((k, v) : String × String).1 == k) = true)
      (List.find?_eq_none.1 hfind (k, v) hm)
  | some p =>
    have hp := List.find?_some hfind
    have hpm := List.mem_of_find?_eq_some hfind
    have : p = (k, v) := by
      refine List.inj_on_of_nodup_map hnd hpm hm ?_
      simpa [beq_iff_eq] using hp
    rw [this]

theorem mapGet_perm {ps qs : List (String × String)} (h : ps.Perm qs)
    (hnd : (ps.map Prod.fst).Nodup) (k : String) :
    mapGet ps k = mapGet qs k := by
  unfold mapGet
  cases hfind : ps.find? (fun p => p.1 == k) with
  | none =>
    have : qs.find? (fun p => p.1 == k) = none :=
      List.find?_eq_none.2
        (fun x hx => List.find?_eq_none.1 hfind x (h.mem_iff.2 hx))
    rw [this]
  | some p =>
    have hqnd : (qs.map Prod.fst).Nodup := ((h.map Prod.fst).nodup_iff).1 hnd
    have hp := List.find?_some hfind
    have hpq : p ∈ qs := h.mem_iff.1 (List.mem_of_find?_eq_some hfind)
    cases hq : qs.find? (fun p => p.1 == k) with
    | none =>
      exact absurd hp (by simpa using List.find?_eq_none.1 hq p hpq)
    | some q =>
      have hqp := List.find?_some hq
      have hqm := List.mem_of_find?_eq_some hq
      have : p = q := by
        refine List.inj_on_of_nodup_map hqnd hpq hqm ?_
        simp only [beq_iff_eq] at hp hqp
        rw [hp, hqp]
      rw [this]

/-! ### Sorted keys -/

theorem sortKeys_perm (ps : List (String × String)) :
    (sortKeys ps).Perm (ps.map Prod.fst) :=
  List.perm_insertionSort _ _

theorem sortKeys_congr {ps qs : List (String × String)} (h : ps.Perm qs) :
    sortKeys ps = sortKeys qs :=
  List.eq_of_perm_of_sorted
    ((sortKeys_perm ps).trans ((h.map Prod.fst).trans (sortKeys_perm qs).symm))
    (List.sorted_insertionSort _ _) (List.sorted_insertionSort _ _)

/-! ### Membership in the encoded query -/

theorem mem_encodeParts {pairs : List (String × String)} {k v : String}
    (hm : (k, v) ∈ pairs) :
    (queryEscape k ++ "=" ++ queryEscape v) ∈
      (List.insertionSort strLeR (pairs.map Prod.fst).dedup).flatMap
        (fun k2 => (pairs.filter (fun p => p.1 == k2)).map
          (fun p => queryEscape k2 ++ "=" ++ queryEscape p.2)) := by
  rw [List.mem_flatMap]
  refine ⟨k, ?_, ?_⟩
  · exact ((List.perm_insertionSort strLeR _).mem_iff).2
      (List.mem_dedup.2 (List.mem_map_of_mem Prod.fst hm))
  · rw [List.mem_map]
    exact ⟨(k, v), List.mem_filter.2 ⟨hm, by simp⟩, rfl⟩

theorem mem_ite_nil {α : Type} (c : Prop) [Decidable c] (l : List α) (a : α) :
    (a ∈ if c then l else []) ↔ c ∧ a ∈ l := by
  split <;> simp [*]

theorem checkAccess_cases (api : API) :
    checkAccess api = some Err.noAccess ∨ checkAccess api = none := by
  unfold checkAccess; split <;> simp

/-! ## The claims -/

/-- C1: for every token, nonzero marker and parameter mapping,
`withSignature` returns an `&`-joined URL-encoded query whose entries include
every input parameter, a `marker=<marker>` entry, and a
`signature=<hex-hash>` entry whose hash is the lowercase-hex MD5 digest of
the source string the spec describes: `token + ":" + marker` followed by
`":" + value` for each value in ascending key order (`specSourceString`). -/
theorem spec_C1 (token : String) (marker : Int)
    (params : List (String × String)) (hm : marker ≠ 0)
    (hnd : (params.map Prod.fst).Nodup) :
    ∃ parts : List String,
      withSignature token marker (some params) = String.intercalate "&" parts ∧
      (∀ kv ∈ params,
        (queryEscape kv.1 ++ "=" ++ queryEscape kv.2) ∈ parts) ∧
      ("marker=" ++ toString marker) ∈ parts ∧
      ("signature=" ++
        md5Hex (strBytes (specSourceString token marker params))) ∈ parts := by
  have hsrc : (sortKeys params).foldl (fun s k => s ++ ":" ++ mapGet params k)
      (token ++ ":" ++ toString marker) =
        specSourceString token marker params := by
    rw [srcString_foldl]; rfl
  have hw : withSignature token marker (some params) =
      valuesEncode ((sortKeys params).map (fun k => (k, mapGet params k)) ++
        [("marker", toString marker),
         ("signature",
           md5Hex (strBytes (specSourceString token marker params)))]) := by
    unfold withSignature
    rw [← hsrc]
    rfl
  rw [hw]
  refine ⟨_, rfl, ?_, ?_, ?_⟩
  · intro kv hkv
    have h1 : (kv.1, kv.2) ∈
        (sortKeys params).map (fun k => (k, mapGet params k)) ++
          [("marker", toString marker),
           ("signature",
             md5Hex (strBytes (specSourceString token marker params)))] := by
      refine List.mem_append.2 (Or.inl ?_)
      rw [List.mem_map]
      refine ⟨kv.1, ?_, ?_⟩
      · exact (sortKeys_perm params).mem_iff.2
          (List.mem_map_of_mem Prod.fst hkv)
      · rw [mapGet_eq_of_mem hnd (by simpa using hkv)]
    exact mem_encodeParts h1
  · have h1 : (("marker", toString marker) : String × String) ∈
        (sortKeys params).map (fun k => (k, mapGet params k)) ++
          [("marker", toString marker),
           ("signature",
             md5Hex (strBytes (specSourceString token marker params)))] :=
      List.mem_append.2 (Or.inr (by simp))
    have h2 := mem_encodeParts h1
    rw [(rfl : queryEscape "marker" = "marker"),
      queryEscape_intToString] at h2
    exact h2
  · have h1 : (("signature",
        md5Hex (strBytes (specSourceString token marker params))) :
          String × String) ∈
        (sortKeys params).map (fun k => (k, mapGet params k)) ++
          [("marker", toString marker),
           ("signature",
             md5Hex (strBytes (specSourceString token marker params)))] :=
      List.mem_append.2 (Or.inr (by simp))
    have h2 := mem_encodeParts h1
    rw [(rfl : queryEscape "signature" = "signature"),
      queryEscape_md5Hex] at h2
    exact h2

/-- C1 witness: the inputs of the repository test (marker 35290, the test
token, the four lookup parameters) satisfy the hypotheses and the
conclusion. -/
theorem spec_C1_witness :
    (35290 : Int) ≠ 0 ∧
    ((([("query", "moscow"), ("lang", "en"), ("limit", "1"),
        ("lookFor", "both")] : List (String × String)).map Prod.fst).Nodup) ∧
    (∃ parts : List String,
      withSignature "bqadagadoqadjmcocciox1grdvp3ag" 35290
          (some [("query", "moscow"), ("lang", "en"), ("limit", "1"),
            ("lookFor", "both")]) = String.intercalate "&" parts ∧
      (∀ kv ∈ ([("query", "moscow"), ("lang", "en"), ("limit", "1"),
            ("lookFor", "both")] : List (String × String)),
        (queryEscape kv.1 ++ "=" ++ queryEscape kv.2) ∈ parts) ∧
      ("marker=" ++ toString (35290 : Int)) ∈ parts ∧
      ("signature=" ++ md5Hex (strBytes (specSourceString
          "bqadagadoqadjmcocciox1grdvp3ag" 35290
          [("query", "moscow"), ("lang", "en"), ("limit", "1"),
            ("lookFor", "both")]))) ∈ parts) :=
  ⟨by decide, by decide,
    spec_C1 "bqadagadoqadjmcocciox1grdvp3ag" 35290
      [("query", "moscow"), ("lang", "en"), ("limit", "1"),
        ("lookFor", "both")] (by decide) (by decide)⟩

/-- C3: with a nil parameter map the signature is the lowercase-hex MD5 of
exactly `token + ":" + marker`, for every token and marker; and at the
credentials of the repository test (marker 35290, token
`bqadagadoqadjmcocciox1grdvp3ag`) the full returned string is exactly
`marker=35290&signature=abdab6a981233bdaf156a5abc17cb382`. -/
theorem spec_C3 :
    (∀ (token : String) (marker : Int),
      withSignature token marker none =
        "marker=" ++ toString marker ++ "&" ++
          ("signature=" ++ md5Hex (strBytes (token ++ ":" ++ toString marker)))) ∧
    withSignature "bqadagadoqadjmcocciox1grdvp3ag" 35290 none =
      "marker=35290&signature=abdab6a981233bdaf156a5abc17cb382" := by
  constructor
  · intro token marker
    have h1 : withSignature token marker none =
        queryEscape "marker" ++ "=" ++ queryEscape (toString marker) ++ "&" ++
          (queryEscape "signature" ++ "=" ++
            queryEscape (md5Hex (strBytes (token ++ ":" ++ toString marker)))) :=
      rfl
    have e1 : queryEscape "marker" = "marker" := rfl
    have e2 : queryEscape "signature" = "signature" := rfl
    rw [h1, e1, e2, queryEscape_intToString, queryEscape_md5Hex]
    rfl
  · decide

/-- C4: the signature (and the whole encoded query) is invariant under the
insertion order of the parameter mapping — only the sorted key order enters
the hash input. -/
theorem spec_C4 (token : String) (marker : Int)
    (l1 l2 : List (String × String)) (hperm : l1.Perm l2)
    (hnd : (l1.map Prod.fst).Nodup) :
    withSignature token marker (some l1) =
      withSignature token marker (some l2) := by
  have hkeys : sortKeys l1 = sortKeys l2 := sortKeys_congr hperm
  have hget : ∀ k, mapGet l1 k = mapGet l2 k := mapGet_perm hperm hnd
  simp only [withSignature, Option.getD, hkeys, hget]

/-- C4 witness: two insertion orders of the same two-entry mapping produce
the same output. -/
theorem spec_C4_witness :
    ([("b", "2"), ("a", "1")] : List (String × String)).Perm
      [("a", "1"), ("b", "2")] ∧
    ((([("b", "2"), ("a", "1")] : List (String × String)).map Prod.fst).Nodup) ∧
    withSignature "tok" 7 (some [("b", "2"), ("a", "1")]) =
      withSignature "tok" 7 (some [("a", "1"), ("b", "2")]) :=
  ⟨by decide, by decide,
    spec_C4 "tok" 7 [("b", "2"), ("a", "1")] [("a", "1"), ("b", "2")]
      (by decide) (by decide)⟩

/-- C2: the claim that every closed endpoint — `RoomTypes` included — returns
`ErrNoAccess` without a network call under bad credentials fails on
`RoomTypes`: at marker 35290 with an empty token it issues its request (one
URL fetched) and returns the decoded payload — in particular not the gated
`(ErrNoAccess, no request)` outcome — even though `checkAccess` on that same
client rejects, and in contrast to `Countries`, which gates first and
performs no fetch. -/
theorem spec_C2 :
    (RoomTypes (α := Unit)
        { token := "", marker := 35290, remains := 0, limit := 0 }
        (fun _ => .ok ())).1 = .ok () ∧
    (RoomTypes (α := Unit)
        { token := "", marker := 35290, remains := 0, limit := 0 }
        (fun _ => .ok ())).2.length = 1 ∧
    Countries (α := Unit)
        { token := "", marker := 35290, remains := 0, limit := 0 }
        (fun _ => .ok ()) = (.error .noAccess, []) ∧
    checkAccess { token := "", marker := 35290, remains := 0, limit := 0 } =
      some .noAccess ∧
    RoomTypes (α := Unit)
        { token := "", marker := 35290, remains := 0, limit := 0 }
        (fun _ => .ok ()) ≠ (.error .noAccess, []) :=
  ⟨rfl, rfl, rfl, rfl, fun h => Except.noConfusion (congrArg Prod.fst h)⟩

/-- C2 gate on the four endpoints that do call `checkAccess`: with an empty
token or a zero marker, `Countries`, `Cities`, `Amenities` and
`FetchHotelList` return `ErrNoAccess` and fetch nothing. -/
theorem spec_C2_gated {α : Type} (api : API)
    (fetch : String → HttpOutcome α) (loc : String)
    (h : api.token = "" ∨ api.marker = 0) :
    Countries api fetch = (.error .noAccess, []) ∧
    Cities api fetch = (.error .noAccess, []) ∧
    Amenities api fetch = (.error .noAccess, []) ∧
    FetchHotelList api loc fetch = (.error .noAccess, []) := by
  have hca : checkAccess api = some Err.noAccess := by
    unfold checkAccess
    rw [if_pos h]
  refine ⟨?_, ?_, ?_, ?_⟩ <;> simp [Countries, Cities, Amenities,
    FetchHotelList, hca]

/-- C2 gate witness: an empty-token client with nonzero marker. -/
theorem spec_C2_gated_witness :
    (("" : String) = "" ∨ (35290 : Int) = 0) ∧
    (Countries (α := Unit)
        { token := "", marker := 35290, remains := 0, limit := 0 }
        (fun _ => .ok ()) = (.error .noAccess, []) ∧
      Cities (α := Unit)
        { token := "", marker := 35290, remains := 0, limit := 0 }
        (fun _ => .ok ()) = (.error .noAccess, []) ∧
      Amenities (α := Unit)
        { token := "", marker := 35290, remains := 0, limit := 0 }
        (fun _ => .ok ()) = (.error .noAccess, []) ∧
      FetchHotelList (α := Unit)
        { token := "", marker := 35290, remains := 0, limit := 0 } "895"
        (fun _ => .ok ()) = (.error .noAccess, [])) :=
  ⟨Or.inl rfl,
    spec_C2_gated { token := "", marker := 35290, remains := 0, limit := 0 }
      (fun _ => .ok ()) "895" (Or.inl rfl)⟩

/-- C5: when the body fails to decode, every closed endpoint (`Countries`,
`Cities`, `Amenities`, `FetchHotelList`, `RoomTypes`) reports `ErrNoAccess`,
while every public endpoint (`Lookup`, `Price`, `Search`,
`FetchSearchResults` off its 0 sentinel) passes the decode error through
unchanged (for `FetchSearchResults` this covers both the network path and
the `-1` fixture path). -/
theorem spec_C5 (api : API) (e : String) (loc : String)
    (lreq : LookupRequest) (preq : PriceRequest) (sreq : SearchRequest)
    (rreq : SearchResultsRequest) (hr : rreq.SearchID ≠ 0) :
    (Countries (α := Unit) api (fun _ => .decodeFail e)).1 =
      .error .noAccess ∧
    (Cities (α := Unit) api (fun _ => .decodeFail e)).1 = .error .noAccess ∧
    (Amenities (α := Unit) api (fun _ => .decodeFail e)).1 =
      .error .noAccess ∧
    (FetchHotelList (α := Unit) api loc (fun _ => .decodeFail e)).1 =
      .error .noAccess ∧
    (RoomTypes (α := Unit) api (fun _ => .decodeFail e)).1 =
      .error .noAccess ∧
    (Lookup (α := Unit) api lreq (fun _ => .decodeFail e)).1 =
      .error (.decode e) ∧
    (Price (α := Unit) api preq (fun _ => .decodeFail e)).1 =
      .error (.decode e) ∧
    (Search (α := Unit) api sreq (fun _ => .decodeFail e)).1 =
      .error (.decode e) ∧
    (FetchSearchResults (α := Unit) api rreq (fun _ => .decodeFail e)
        (.error e)).1 = .error (.decode e) := by
  refine ⟨?_, ?_, ?_, ?_, rfl, rfl, rfl, rfl, ?_⟩
  · rcases checkAccess_cases api with h | h <;> simp [Countries, h]
  · rcases checkAccess_cases api with h | h <;> simp [Cities, h]
  · rcases checkAccess_cases api with h | h <;> simp [Amenities, h]
  · rcases checkAccess_cases api with h | h <;> simp [FetchHotelList, h]
  · by_cases h2 : rreq.SearchID = -1 <;> simp [FetchSearchResults, hr, h2]

/-- C5 witness: a decode failure surfaced to every endpoint at concrete
requests. -/
theorem spec_C5_witness :
    ((⟨5, 0, 0, "", 0, 0⟩ : SearchResultsRequest).SearchID ≠ 0) ∧
    ((Countries (α := Unit) ⟨"t", 1, 0, 0⟩ (fun _ => .decodeFail "boom")).1 =
        .error .noAccess ∧
      (Cities (α := Unit) ⟨"t", 1, 0, 0⟩ (fun _ => .decodeFail "boom")).1 =
        .error .noAccess ∧
      (Amenities (α := Unit) ⟨"t", 1, 0, 0⟩ (fun _ => .decodeFail "boom")).1 =
        .error .noAccess ∧
      (FetchHotelList (α := Unit) ⟨"t", 1, 0, 0⟩ "895"
          (fun _ => .decodeFail "boom")).1 = .error .noAccess ∧
      (RoomTypes (α := Unit) ⟨"t", 1, 0, 0⟩
          (fun _ => .decodeFail "boom")).1 = .error .noAccess ∧
      (Lookup (α := Unit) ⟨"t", 1, 0, 0⟩ ⟨"moscow", "en", "both", 0, 0⟩
          (fun _ => .decodeFail "boom")).1 = .error (.decode "boom") ∧
      (Price (α := Unit) ⟨"t", 1, 0, 0⟩
          ⟨"MOW", "2016-12-10", "2016-12-17", "rub", 0, 0, "", 0, 0, 0, 10,
            "1.2.3.4"⟩
          (fun _ => .decodeFail "boom")).1 = .error (.decode "boom") ∧
      (Search (α := Unit) ⟨"t", 1, 0, 0⟩
          ⟨12196, 0, "", "2016-12-31", "2017-01-02", 1, 0, (0, 0, 0),
            "127.0.0.1", "usd", "en", 0⟩
          (fun _ => .decodeFail "boom")).1 = .error (.decode "boom") ∧
      (FetchSearchResults (α := Unit) ⟨"t", 1, 0, 0⟩ ⟨5, 0, 0, "", 0, 0⟩
          (fun _ => .decodeFail "boom") (.error "boom")).1 =
        .error (.decode "boom")) :=
  ⟨by decide,
    spec_C5 ⟨"t", 1, 0, 0⟩ "boom" "895" ⟨"moscow", "en", "both", 0, 0⟩
      ⟨"MOW", "2016-12-10", "2016-12-17", "rub", 0, 0, "", 0, 0, 0, 10,
        "1.2.3.4"⟩
      ⟨12196, 0, "", "2016-12-31", "2017-01-02", 1, 0, (0, 0, 0),
        "127.0.0.1", "usd", "en", 0⟩
      ⟨5, 0, 0, "", 0, 0⟩ (by decide)⟩

/-- C6: with `SearchID = -1`, `FetchSearchResults` answers from the local
fixture and requests no URL, whatever the other fields, the fetch oracle and
the fixture contents. -/
theorem spec_C6 {α : Type} (api : API) (req : SearchResultsRequest)
    (fetch : String → HttpOutcome α) (fixture : Except String α)
    (h : req.SearchID = -1) :
    FetchSearchResults api req fetch fixture =
      ((match fixture with
        | .error e => .error (.decode e)
        | .ok v => .ok v), []) := by
  simp [FetchSearchResults, h]

/-- C6 witness: sentinel `-1` with arbitrary other fields returns the
fixture payload and fetches nothing, even though the oracle would answer. -/
theorem spec_C6_witness :
    ((⟨-1, 2, 3, "price", -1, 1⟩ : SearchResultsRequest).SearchID = -1) ∧
    FetchSearchResults (α := Bool) ⟨"t", 1, 0, 0⟩ ⟨-1, 2, 3, "price", -1, 1⟩
        (fun _ => .ok false) (.ok true) = (.ok true, []) :=
  ⟨by decide,
    spec_C6 ⟨"t", 1, 0, 0⟩ ⟨-1, 2, 3, "price", -1, 1⟩ (fun _ => .ok false)
      (.ok true) (by decide)⟩

/-- C7: with `SearchID = 0`, `FetchSearchResults` returns the sentinel
`ErrEmptySearchID` with no URL requested, whatever the other fields, the
fetch oracle and the fixture. -/
theorem spec_C7 {α : Type} (api : API) (req : SearchResultsRequest)
    (fetch : String → HttpOutcome α) (fixture : Except String α)
    (h : req.SearchID = 0) :
    FetchSearchResults api req fetch fixture =
      (.error .emptySearchID, []) := by
  simp [FetchSearchResults, h]

/-- C7 witness: `SearchID = 0` with arbitrary other fields. -/
theorem spec_C7_witness :
    ((⟨0, 2, 3, "price", -1, 1⟩ : SearchResultsRequest).SearchID = 0) ∧
    FetchSearchResults (α := Unit) ⟨"t", 1, 0, 0⟩ ⟨0, 2, 3, "price", -1, 1⟩
        (fun _ => .ok ()) (.ok ()) = (.error .emptySearchID, []) :=
  ⟨by decide,
    spec_C7 ⟨"t", 1, 0, 0⟩ ⟨0, 2, 3, "price", -1, 1⟩ (fun _ => .ok ())
      (.ok ()) (by decide)⟩

/-- C8: `NewAPI 0` yields no client; `NewAPI m` for any nonzero `m`
(negative included) yields an initialized client with marker `m` and empty
token. -/
theorem spec_C8 (m : Int) :
    (m = 0 → NewAPI m = none) ∧
    (m ≠ 0 → NewAPI m =
      some { token := "", marker := m, remains := 0, limit := 0 }) := by
  constructor <;> intro h <;> simp [NewAPI, h]

/-- C8 witness: marker 0 gives `none`; the negative marker `-3` gives a
usable client with empty token. -/
theorem spec_C8_witness :
    ((0 : Int) = 0 ∧ NewAPI 0 = none) ∧
    ((-3 : Int) ≠ 0 ∧ NewAPI (-3) =
      some { token := "", marker := -3, remains := 0, limit := 0 }) :=
  ⟨⟨rfl, (spec_C8 0).1 rfl⟩, ⟨by decide, (spec_C8 (-3)).2 (by decide)⟩⟩

/-- C9: `RequestsRemains` and `RequestsLimit` return 0 on every client
state — also after `updateRemains` has stored nonzero parsed header values
(e.g. remaining 42, limit 100), so the tracked counters are never observable
through these accessors. -/
theorem spec_C9 (api : API) (r l : String) :
    RequestsRemains (updateRemains api r l) = 0 ∧
    RequestsLimit (updateRemains api r l) = 0 ∧
    (∀ b : API, RequestsRemains b = 0 ∧ RequestsLimit b = 0) ∧
    (updateRemains api "42" "100").remains = 42 ∧
    (updateRemains api "42" "100").limit = 100 :=
  ⟨rfl, rfl, fun _ => ⟨rfl, rfl⟩,
    by show goAtoi "42" = (42 : Int); decide,
    by show goAtoi "100" = (100 : Int); decide⟩

/-- C10: `Price` carries a nonzero hotel identifier only under the
misspelled key `hotleId` — never under `hotelId` — and omits it entirely
when `HotelID` is zero. -/
theorem spec_C10 (req : PriceRequest) :
    (req.HotelID ≠ 0 →
      ("hotleId", toString req.HotelID) ∈ pricePairs req ∧
      ∀ v, ("hotelId", v) ∉ pricePairs req) ∧
    (req.HotelID = 0 →
      ∀ v, ("hotleId", v) ∉ pricePairs req ∧
        ("hotelId", v) ∉ pricePairs req) := by
  constructor
  · intro h
    constructor
    · simp [pricePairs, mem_ite_nil, h]
    · intro v
      simp [pricePairs, mem_ite_nil]
  · intro h
    intro v
    constructor <;> simp [pricePairs, mem_ite_nil, h]

/-- C10 witness: hotel id 7 rides under `hotleId` and not under `hotelId`. -/
theorem spec_C10_witness :
    ((⟨"MOW", "a", "b", "rub", 0, 7, "", 0, 0, 0, 0, "ip"⟩ :
        PriceRequest).HotelID ≠ 0) ∧
    ("hotleId", toString
        ((⟨"MOW", "a", "b", "rub", 0, 7, "", 0, 0, 0, 0, "ip"⟩ :
          PriceRequest).HotelID)) ∈
      pricePairs ⟨"MOW", "a", "b", "rub", 0, 7, "", 0, 0, 0, 0, "ip"⟩ ∧
    ("hotelId", "7") ∉
      pricePairs ⟨"MOW", "a", "b", "rub", 0, 7, "", 0, 0, 0, 0, "ip"⟩ :=
  ⟨by decide,
    ((spec_C10 ⟨"MOW", "a", "b", "rub", 0, 7, "", 0, 0, 0, 0, "ip"⟩).1
      (by decide)).1,
    ((spec_C10 ⟨"MOW", "a", "b", "rub", 0, 7, "", 0, 0, 0, 0, "ip"⟩).1
      (by decide)).2 "7"⟩

end Hotellook
